import Mathlib

/-!
Verification development for the Email-Phishing-detection repository.

The backend endpoint in `main.py` (`summarize_email`) builds a prompt from an
email inquiry, posts it to a completion API, cleans the reply text, validates
that the three field markers are present, parses the fields and returns a
structured `APIResponse`.  `sampleSummary.py` is a parallel variant of the same
endpoint (different completion API) whose parsing pipeline additionally checks
for an empty cleaned reply.  `app.py` is the UI front end whose submit handler
rejects inquiries with empty fields before sending anything to the backend.

Python strings are modelled as `List Char`; every text-manipulating helper
below is a direct transcription of the corresponding Python operation.
-/

/-- Whitespace as used by Python `str.strip`, `str.split` and the regex
class `\s` (ASCII range, which covers all inputs handled here). -/
def pyIsSpace (c : Char) : Bool :=
  c == ' ' || c == '\t' || c == '\n' || c == '\r' || c == '\x0b' || c == '\x0c'

/-- Python `str.strip()`: drop whitespace from both ends. -/
def pyStrip (l : List Char) : List Char :=
  (((l.dropWhile pyIsSpace).reverse).dropWhile pyIsSpace).reverse

/-- Python substring test `pat in s`. -/
def containsSub (pat : List Char) : List Char → Bool
  | [] => pat.isPrefixOf []
  | c :: rest => pat.isPrefixOf (c :: rest) || containsSub pat rest

/-- The characters of `l` that precede the first occurrence of `pat`,
or `none` when `pat` (assumed non-empty) does not occur in `l`. -/
def beforeFirst (pat : List Char) : List Char → Option (List Char)
  | [] => none
  | c :: rest =>
    if pat.isPrefixOf (c :: rest) then some []
    else (beforeFirst pat rest).map (fun p => c :: p)

/-- The reasoning marker stripped by `clean_response` (`main.py` line 84). -/
def thinkMarker : List Char := "<think>".toList

/-- The suffix of `l` after the last occurrence of `pat`, or `l` itself when
`pat` does not occur.  `main.py` computes this as `content.split(pat)[-1]`;
for the marker `<think>` (no proper prefix of which is also a suffix)
occurrences cannot overlap, so the last piece of the Python split is exactly
the suffix after the last occurrence, located here by scanning the reversed
text for the reversed pattern. -/
def afterLastMarker (pat l : List Char) : List Char :=
  match beforeFirst pat.reverse l.reverse with
  | some p => p.reverse
  | none => l

/-- One-pass state machine for `re.sub(r'<[^>]+>', '', content)`
(`main.py` line 88): `st = none` means we are outside any candidate tag;
`st = some buf` means we read a `<` and then the characters of `buf`
(stored reversed), none of which was `>`.  A candidate closed by `>` after
at least one inner character is deleted; a candidate that reaches the end of
the input unclosed is emitted literally (the regex requires a closing `>`),
and `<>` is emitted literally (the regex requires at least one inner
character). -/
def removeTagsAux (st : Option (List Char)) : List Char → List Char
  | [] =>
    match st with
    | none => []
    | some buf => '<' :: buf.reverse
  | c :: rest =>
    match st with
    | none =>
      if c = '<' then removeTagsAux (some []) rest
      else c :: removeTagsAux none rest
    | some buf =>
      if c = '>' then
        match buf with
        | [] => '<' :: '>' :: removeTagsAux none rest
        | _ :: _ => removeTagsAux none rest
      else removeTagsAux (some (c :: buf)) rest

/-- `re.sub(r'<[^>]+>', '', content)` from `clean_response`. -/
def removeTags (l : List Char) : List Char := removeTagsAux none l

/-- Helper for the tag predicate: the rest of the input after the first `>`
when one exists. -/
def skipToGt : List Char → Option (List Char)
  | [] => none
  | c :: rest => if c = '>' then some rest else skipToGt rest

/-- Whether the regex `<[^>]+>` matches at the start of `'<' :: l`, i.e.
whether `l` starts with at least one non-`>` character followed later by a
`>`; returns the rest after that `>`. -/
def tagSpan : List Char → Option (List Char)
  | [] => none
  | c :: rest => if c = '>' then none else skipToGt rest

/-- Whether the text contains any angle-bracket tag, i.e. any substring
matched by the regex `<[^>]+>`. -/
def hasTag : List Char → Bool
  | [] => false
  | c :: rest =>
    if c = '<' then (tagSpan rest).isSome || hasTag rest
    else hasTag rest

/-- Python `content.replace('\r\n', '\n')` (leftmost, non-overlapping). -/
def normCRLF : List Char → List Char
  | '\r' :: '\n' :: rest => '\n' :: normCRLF rest
  | c :: rest => c :: normCRLF rest
  | [] => []

/-- `clean_response` (`main.py` lines 81-92, identical in
`sampleSummary.py` lines 65-76): keep only the text after the last
`<think>` marker when one is present, delete angle-bracket tags, normalize
`\r\n` line endings and strip surrounding whitespace. -/
def clean_response (content : List Char) : List Char :=
  let c1 := if containsSub thinkMarker content then afterLastMarker thinkMarker content
            else content
  let c2 := removeTags c1
  let c3 := normCRLF c2
  pyStrip c3

/-- Python `content.split('\n')`. -/
def splitNL : List Char → List (List Char)
  | [] => [[]]
  | '\n' :: rest => [] :: splitNL rest
  | c :: rest =>
    match splitNL rest with
    | p :: ps => (c :: p) :: ps
    | [] => [[c]]

/-- `[line.strip() for line in content.split('\n') if line.strip()]`
(`main.py` line 234). -/
def linesOf (content : List Char) : List (List Char) :=
  ((splitNL content).map pyStrip).filter (fun l => l ≠ [])

/-- Python `s.replace(sep, '')` for a non-empty `sep`: delete every leftmost,
non-overlapping occurrence.  The fuel argument (initially the length of the
string, enough because every step consumes at least one character) makes the
scan structurally recursive. -/
def removeAllAux (sep : List Char) : Nat → List Char → List Char
  | _, [] => []
  | 0, l => l
  | fuel + 1, c :: rest =>
    if sep.isPrefixOf (c :: rest) then
      removeAllAux sep fuel (List.drop sep.length (c :: rest))
    else c :: removeAllAux sep fuel rest

/-- Python `s.replace(sep, '')`. -/
def removeAllSub (sep l : List Char) : List Char := removeAllAux sep l.length l

/-- Field markers required in the cleaned reply (`main.py` line 223). -/
def summaryMarker : List Char := "SUMMARY:".toList

def riskLevelMarker : List Char := "RISK_LEVEL:".toList

def riskDetailsMarker : List Char := "RISK_DETAILS:".toList

/-- `all(field in content for field in required_fields)` (`main.py` line 224). -/
def hasAllFields (content : List Char) : Bool :=
  containsSub summaryMarker content && containsSub riskLevelMarker content &&
    containsSub riskDetailsMarker content

/-- The `parsed_data` dictionary of `main.py` lines 235-239. -/
structure ParsedData where
  summary : List Char
  riskLevel : List Char
  riskDetails : List Char
  deriving DecidableEq

/-- Defaults installed before scanning the lines (`main.py` lines 235-239). -/
def initialParsedData : ParsedData :=
  { summary := "No summary available".toList
  , riskLevel := "UNKNOWN".toList
  , riskDetails := "No details provided".toList }

/-- The update a single line applies to a single field
(`main.py` lines 241-246): a line starting with the marker whose text after
`line.replace(field, '').strip()` is non-empty overwrites the current value;
otherwise the current value is kept. -/
def updateField (marker cur line : List Char) : List Char :=
  if marker.isPrefixOf line then
    let v := pyStrip (removeAllSub marker line)
    if v = [] then cur else v
  else cur

/-- One iteration of the `for line in lines` loop of `main.py` lines 241-246
(the three fields are updated independently, in dictionary order). -/
def updateLine (pd : ParsedData) (line : List Char) : ParsedData :=
  { summary := updateField summaryMarker pd.summary line
  , riskLevel := updateField riskLevelMarker pd.riskLevel line
  , riskDetails := updateField riskDetailsMarker pd.riskDetails line }

/-- The full parsing loop of `main.py` lines 234-246. -/
def parseFields (lines : List (List Char)) : ParsedData :=
  lines.foldl updateLine initialParsedData

/-- The allowed risk levels (`main.py` line 250). -/
def fourLevels : List (List Char) :=
  ["LOW".toList, "MEDIUM".toList, "HIGH".toList, "UNKNOWN".toList]

/-- Risk-level normalization (`main.py` lines 249-252): a parsed value outside
the allowed set is coerced to `UNKNOWN`. -/
def finalRiskLevel (pd : ParsedData) : List Char :=
  if fourLevels.contains pd.riskLevel then pd.riskLevel else "UNKNOWN".toList

/-- The literal scheme prefixes of the regex `https?://\S+`. -/
def httpMarker : List Char := "http://".toList

def httpsMarker : List Char := "https://".toList

/-- After one of the scheme prefixes matched, the regex `\S+` greedily takes
the maximal non-empty run of non-whitespace characters; the match fails
when that run is empty. -/
def urlFrom (pre rest : List Char) : Option (List Char × List Char) :=
  let run := rest.takeWhile (fun c => !(pyIsSpace c))
  if run = [] then none
  else some (pre ++ run, rest.drop run.length)

/-- Whether the regex `https?://\S+` matches at the start of `l`; returns the
matched URL and the rest of the input after the match. -/
def matchUrlAt (l : List Char) : Option (List Char × List Char) :=
  if httpsMarker.isPrefixOf l then urlFrom httpsMarker (List.drop 8 l)
  else if httpMarker.isPrefixOf l then urlFrom httpMarker (List.drop 7 l)
  else none

/-- `re.findall(r'(https?://\S+)', body)` scanning: try to match at the
current position; on a match, emit it and continue after it, otherwise
advance one character.  The fuel argument (initially the length of the body,
enough because every step consumes at least one character) makes the scan
structurally recursive. -/
def extractAux : Nat → List Char → List (List Char)
  | _, [] => []
  | 0, _ => []
  | fuel + 1, c :: rest =>
    match matchUrlAt (c :: rest) with
    | some (url, rest2) => url :: extractAux fuel rest2
    | none => extractAux fuel rest

/-- `extract_links` (`main.py` lines 131-133). -/
def extract_links (body : List Char) : List (List Char) :=
  extractAux body.length body

/-- Classification of one link inside the `scan_links` loop
(`main.py` lines 138-142).  The optional argument models the optional
`validators` dependency: `some check` when the library imported (then
`check` is `validators.url`), `none` when the import failed. -/
def classifyLink (v : Option (List Char → Bool)) (link : List Char) : List Char :=
  match v with
  | some check => if check link then "SAFE".toList else "INVALID".toList
  | none => "UNKNOWN".toList

/-- Python dict assignment `d[k] = val`: overwrite in place when the key is
present, else append (insertion order preserved). -/
def insertAssoc (m : List (List Char × List Char)) (k val : List Char) :
    List (List Char × List Char) :=
  if m.any (fun p => p.1 == k) then
    m.map (fun p => if p.1 == k then (k, val) else p)
  else m ++ [(k, val)]

/-- `scan_links` (`main.py` lines 135-143). -/
def scan_links (v : Option (List Char → Bool)) (links : List (List Char)) :
    List (List Char × List Char) :=
  links.foldl (fun m link => insertAssoc m link (classifyLink v link)) []

/-- Distinct keys in first-occurrence order, skipping those already `seen`:
the key order of a Python dict built by repeated assignment. -/
def dedupFirst (seen : List (List Char)) : List (List Char) → List (List Char)
  | [] => []
  | k :: rest =>
    if seen.any (fun s => s == k) then dedupFirst seen rest
    else k :: dedupFirst (k :: seen) rest

/-- JSON values, as far as the two handlers inspect them. -/
inductive Json where
  | null : Json
  | bool : Bool → Json
  | num : Int → Json
  | str : List Char → Json
  | arr : List Json → Json
  | obj : List (List Char × Json) → Json

/-- Key lookup in a JSON object field list. -/
def lookupA (fields : List (List Char × Json)) (k : List Char) : Option Json :=
  match fields with
  | [] => none
  | (k2, v) :: rest => if k2 == k then some v else lookupA rest k

/-- Python `k in d` for a JSON object field list. -/
def hasKeyA (fields : List (List Char × Json)) (k : List Char) : Bool :=
  (lookupA fields k).isSome

/-- Whether a JSON value is a dict carrying both a `role` and a `content`
key (the per-message check of `validate_payload`). -/
def isRoleContentObj (j : Json) : Bool :=
  match j with
  | Json.obj mf => hasKeyA mf "role".toList && hasKeyA mf "content".toList
  | _ => false

/-- `validate_payload` (`main.py` lines 94-113): the payload must be a dict
with `model` and `messages` keys, `messages` must be a list of dicts, and
every message must carry `role` and `content` keys. -/
def validate_payload (j : Json) : Bool :=
  match j with
  | Json.obj fields =>
    hasKeyA fields "model".toList && hasKeyA fields "messages".toList &&
      (match lookupA fields "messages".toList with
       | some (Json.arr msgs) => msgs.all isRoleContentObj
       | _ => false)
  | _ => false

/-- `validate_response` (`main.py` lines 115-129): structural checks on the
completion-API envelope, returning the first failing check message, or
`none` when the envelope is well-formed.  (In Python, membership tests on a
non-dict `choices[0]` or `message` could instead raise and be caught by the
handler's generic except-block; either way the request ends in an error
outcome, and the well-formed cases below coincide exactly.) -/
def validate_response (j : Json) : Option (List Char) :=
  match j with
  | Json.obj fields =>
    match lookupA fields "choices".toList with
    | some (Json.arr cs) =>
      match cs with
      | [] => some "The \x27choices\x27 list is empty.".toList
      | c0 :: _ =>
        match c0 with
        | Json.obj cf =>
          match lookupA cf "message".toList with
          | some (Json.obj mf) =>
            if hasKeyA mf "content".toList then none
            else some "The first choice must contain a \x27message\x27 field with \x27content\x27.".toList
          | _ => some "The first choice must contain a \x27message\x27 field with \x27content\x27.".toList
        | _ => some "The first choice must contain a \x27message\x27 field with \x27content\x27.".toList
    | _ => some "Response must contain a \x27choices\x27 field with a list.".toList
  | _ => some "Response must be a dictionary.".toList

/-- `result["choices"][0]["message"]["content"]` when it is a string. -/
def jsonContent (j : Json) : Option (List Char) :=
  match j with
  | Json.obj fields =>
    match lookupA fields "choices".toList with
    | some (Json.arr (c0 :: _)) =>
      match c0 with
      | Json.obj cf =>
        match lookupA cf "message".toList with
        | some (Json.obj mf) =>
          match lookupA mf "content".toList with
          | some (Json.str s) => some s
          | _ => none
        | _ => none
      | _ => none
    | _ => none
  | _ => none

/-- `EmailRequest` (`main.py` lines 68-72): the pydantic model requires all
four fields, so an inquiry missing a field is not representable and is
rejected by the framework before the handler runs. -/
structure EmailRequest where
  subject : List Char
  sender : List Char
  recipient : List Char
  body : List Char
  deriving DecidableEq

/-- `APIResponse` (`main.py` lines 74-79).  `sampleSummary.py`'s variant has
no `link_scan_results` field, which is modelled by that field staying
`none`. -/
structure APIResponse where
  summary : List Char
  status : List Char
  risk_assessment : List Char
  error : Option (List Char)
  link_scan_results : Option (List (List Char × List Char))
  deriving DecidableEq

/-- The fixed system instruction of the prompt (`main.py` lines 158-161). -/
def systemPrompt : List Char :=
  "You are an email security analyzer. Analyze emails and respond EXACTLY in this format with no additional text:\nSUMMARY: Brief one-line description of email content\nRISK_LEVEL: LOW|MEDIUM|HIGH\nRISK_DETAILS: One-sentence explanation of risk assessment".toList

/-- The user message of the prompt (`main.py` lines 165-176), embedding the
inquiry fields verbatim under labelled headers. -/
def userPrompt (email : EmailRequest) : List Char :=
  "Analyze this email based on:\n- Sender domain legitimacy\n- Urgency/pressure tactics\n- Unusual requests\n- Links/attachments\n- Financial/credential requests\n\nEmail details:\nSUBJECT: ".toList ++
    email.subject ++ "\nFROM: ".toList ++ email.sender ++ "\nTO: ".toList ++
    email.recipient ++ "\nBODY: ".toList ++ email.body

/-- The request payload `data` of `main.py` lines 153-181.  The numeric
temperature (0.3 in the source) is a float; `validate_payload` never
inspects numeric values, so it is modelled by an integer placeholder. -/
def buildPayload (email : EmailRequest) : Json :=
  Json.obj
    [ ("model".toList, Json.str "gpt-3.5-turbo".toList)
    , ("messages".toList, Json.arr
        [ Json.obj [("role".toList, Json.str "system".toList),
                    ("content".toList, Json.str systemPrompt)]
        , Json.obj [("role".toList, Json.str "user".toList),
                    ("content".toList, Json.str (userPrompt email))] ])
    , ("temperature".toList, Json.num 0)
    , ("max_tokens".toList, Json.num 150) ]

/-- What the outbound `session.post` produced, as observed by the handler:
either an exception (transport failure, connect/read timeout, retry
exhaustion, or a JSON-decoding failure of a 200 body — all reach the
handler's `except Exception` block, carrying `str(e)`), or a response with
a status code, body text, and decoded JSON body. -/
inductive Upstream where
  | exn : List Char → Upstream
  | resp : Nat → List Char → Json → Upstream

/-- An error `APIResponse` with empty summary and risk assessment
(the shape of every `except`/non-200/envelope-failure return). -/
def mkErrorResponse (msg : List Char) : APIResponse :=
  { summary := [], status := "error".toList, risk_assessment := []
  , error := some msg, link_scan_results := none }

/-- The return of `main.py` lines 226-231 when a required field marker is
missing from the cleaned content. -/
def missingFieldsResponse : APIResponse :=
  { summary := "Error: Invalid response format".toList
  , status := "error".toList
  , risk_assessment := "UNKNOWN - Response format error".toList
  , error := some "API response missing required fields".toList
  , link_scan_results := none }

/-- `main.py` lines 222-261: the part of the handler that runs on the
cleaned content of a 200 response — required-field check, line parsing,
risk-level normalization and assembly of the success response. -/
def processContent (scans : List (List Char × List Char)) (content : List Char) :
    APIResponse :=
  if hasAllFields content then
    let pd := parseFields (linesOf content)
    let rl := finalRiskLevel pd
    { summary := pd.summary
    , status := "success".toList
    , risk_assessment := rl ++ " - ".toList ++ pd.riskDetails
    , error := none
    , link_scan_results := some scans }
  else missingFieldsResponse

/-- Rendering of `f"API Error: {response.status_code} - {response.text}"`. -/
def apiErrorMsg (status : Nat) (text : List Char) : List Char :=
  "API Error: ".toList ++ (Nat.repr status).toList ++ " - ".toList ++ text

/-- `summarize_email` (`main.py` lines 146-278) as a function of the inquiry
and the observed upstream outcome; `v` is the optional `validators`
capability passed down to `scan_links`.  A 200 response whose envelope
passes `validate_response` but whose `content` is not a string raises in
Python at `.strip()` and lands in the generic except-block; that caught
error is the `none` branch of `jsonContent` below. -/
def summarize_email (v : Option (List Char → Bool)) (email : EmailRequest)
    (up : Upstream) : APIResponse :=
  if validate_payload (buildPayload email) then
    match up with
    | Upstream.exn msg => mkErrorResponse ("Request failed: ".toList ++ msg)
    | Upstream.resp status text json =>
      if status = 200 then
        match validate_response json with
        | some err => mkErrorResponse err
        | none =>
          match jsonContent json with
          | none => mkErrorResponse ("Request failed: content is not a string".toList)
          | some raw =>
            processContent (scan_links v (extract_links email.body))
              (clean_response (pyStrip raw))
      else mkErrorResponse (apiErrorMsg status text)
  else mkErrorResponse "Invalid payload structure.".toList

/-- The return of `sampleSummary.py` lines 143-148 when the cleaned content
is empty. -/
def emptyResponseOutcome : APIResponse :=
  { summary := "Error: Empty response".toList
  , status := "error".toList
  , risk_assessment := "UNKNOWN - Empty response".toList
  , error := some "API returned empty or invalid response".toList
  , link_scan_results := none }

/-- `sampleSummary.py` lines 141-187: emptiness check first, then the same
required-field check, parsing and normalization as `main.py` (that variant
returns no link results). -/
def sampleProcessContent (content : List Char) : APIResponse :=
  if content = [] then emptyResponseOutcome
  else if hasAllFields content then
    let pd := parseFields (linesOf content)
    let rl := finalRiskLevel pd
    { summary := pd.summary
    , status := "success".toList
    , risk_assessment := rl ++ " - ".toList ++ pd.riskDetails
    , error := none
    , link_scan_results := none }
  else missingFieldsResponse

/-- Upstream outcomes as observed by `sampleSummary.py`'s handler, which
distinguishes timeout (connect vs read), retry-exhaustion and other
exceptions in separate except-blocks. -/
inductive SampleUpstream where
  | timeoutExn : Bool → List Char → SampleUpstream
  | retryExn : List Char → SampleUpstream
  | otherExn : List Char → SampleUpstream
  | resp : Nat → List Char → Json → SampleUpstream

/-- `summarize_email` of `sampleSummary.py` (lines 79-226).  That handler
reads `result["choices"][0]["message"]["content"]` without prior envelope
validation; a missing key raises and is caught by the generic
except-block, modelled by the `none` branch of `jsonContent`. -/
def sample_summarize_email (email : EmailRequest) (up : SampleUpstream) :
    APIResponse :=
  match up with
  | SampleUpstream.timeoutExn isConnect _ =>
    mkErrorResponse
      (if isConnect then "Connection timeout occurred. Please try again.".toList
       else "Read timeout occurred. Please try again.".toList)
  | SampleUpstream.retryExn _ =>
    mkErrorResponse "Service temporarily unavailable. Please try again later.".toList
  | SampleUpstream.otherExn msg =>
    mkErrorResponse ("Request failed: ".toList ++ msg)
  | SampleUpstream.resp status text json =>
    if status = 200 then
      match jsonContent json with
      | none => mkErrorResponse ("Request failed: missing envelope key".toList)
      | some raw => sampleProcessContent (clean_response (pyStrip raw))
    else mkErrorResponse (apiErrorMsg status text)

/-- Outcome of the `st.button("Summarize Email")` handler of `app.py`
lines 118-123: either the inquiry is rejected with the error banner
"Please fill in all fields", or it is forwarded to the backend. -/
inductive FrontAction where
  | rejectEmptyFields : FrontAction
  | sendRequest : List Char → List Char → List Char → List Char → FrontAction
  deriving DecidableEq

/-- `if not all([subject, sender, recipient, body])` (`app.py` lines
118-120): an empty string is falsy, so any empty field rejects the
inquiry before `summarize_email` (and hence any HTTP request) runs. -/
def buttonHandler (subject sender recipient body : List Char) : FrontAction :=
  if subject = [] ∨ sender = [] ∨ recipient = [] ∨ body = [] then
    FrontAction.rejectEmptyFields
  else FrontAction.sendRequest subject sender recipient body

/-- Whether handling the backend request issues the outbound POST to the
completion API: `main.py` posts exactly when the payload validation gate
passes (`session.post` is the first statement after link scanning inside
the `try`). -/
def backendCallsUpstream (email : EmailRequest) : Bool :=
  validate_payload (buildPayload email)

/-- Whether submitting the form leads to an outbound call to the completion
API: the front end must forward the inquiry and the backend must reach its
`session.post`. -/
def systemCallsUpstream (subject sender recipient body : List Char) : Bool :=
  match buttonHandler subject sender recipient body with
  | FrontAction.rejectEmptyFields => false
  | FrontAction.sendRequest s se r b =>
    backendCallsUpstream { subject := s, sender := se, recipient := r, body := b }

/-- The value a single line contributes for a marker: `some v` when the line
starts with the marker and stripping all marker occurrences leaves the
non-empty `v`, else `none`. -/
def fieldValueOf (marker line : List Char) : Option (List Char) :=
  if marker.isPrefixOf line then
    let v := pyStrip (removeAllSub marker line)
    if v = [] then none else some v
  else none

/-- The last non-empty match for a marker over a list of lines (later lines
take priority). -/
def lastFieldValue (marker : List Char) : List (List Char) → Option (List Char)
  | [] => none
  | l :: rest =>
    match lastFieldValue marker rest with
    | some v => some v
    | none => fieldValueOf marker l

/-- The failure conditions of one `main.py` request: a raised transport
exception (including timeouts and retry exhaustion), a non-200 status, a
malformed envelope, a non-string content, or cleaned content missing the
required field markers. -/
def mainFailure : Upstream → Bool
  | Upstream.exn _ => true
  | Upstream.resp status _ json =>
    (!(status == 200)) || (validate_response json).isSome ||
      (match jsonContent json with
       | none => true
       | some raw => !(hasAllFields (clean_response (pyStrip raw))))

/-- The failure conditions of one `sampleSummary.py` request (that variant
additionally fails on empty cleaned content). -/
def sampleFailure : SampleUpstream → Bool
  | SampleUpstream.timeoutExn _ _ => true
  | SampleUpstream.retryExn _ => true
  | SampleUpstream.otherExn _ => true
  | SampleUpstream.resp status _ json =>
    (!(status == 200)) ||
      (match jsonContent json with
       | none => true
       | some raw =>
         decide (clean_response (pyStrip raw) = []) ||
           !(hasAllFields (clean_response (pyStrip raw))))

/-- A well-formed error outcome: status "error" and a non-empty
human-readable message. -/
def errorOutcome (r : APIResponse) : Prop :=
  r.status = "error".toList ∧ ∃ m, r.error = some m ∧ m ≠ []

/-- A small concrete inquiry used by the concrete witnesses. -/
def demoEmail : EmailRequest :=
  { subject := "s".toList, sender := "a".toList
  , recipient := "r".toList, body := "c".toList }

/-- A well-formed completion envelope whose content lacks the required field
markers. -/
def envPlainContent : Json :=
  Json.obj [("choices".toList, Json.arr
    [Json.obj [("message".toList, Json.obj
      [("content".toList, Json.str "hello".toList)])]])]

/-- A well-formed completion envelope whose content "SUMMARY: ok..."
parses successfully. -/
def envGoodContent : Json :=
  Json.obj [("choices".toList, Json.arr
    [Json.obj [("message".toList, Json.obj
      [("content".toList,
        Json.str "SUMMARY: ok\nRISK_LEVEL: LOW\nRISK_DETAILS: fine".toList)])]])]

/-- A well-formed completion envelope whose content "<think>" cleans to the
empty string. -/
def envThinkOnly : Json :=
  Json.obj [("choices".toList, Json.arr
    [Json.obj [("message".toList, Json.obj
      [("content".toList, Json.str "<think>".toList)])]])]

theorem updateField_eq (marker cur line : List Char) :
    updateField marker cur line = (fieldValueOf marker line).getD cur := by
  unfold updateField fieldValueOf
  by_cases h : marker.isPrefixOf line
  · by_cases hv : pyStrip (removeAllSub marker line) = [] <;> simp [h, hv]
  · simp [h]

theorem foldl_updateField (marker : List Char) :
    ∀ lines cur, lines.foldl (fun c l => updateField marker c l) cur =
      (lastFieldValue marker lines).getD cur := by
  intro lines
  induction lines with
  | nil => intro cur; rfl
  | cons l rest ih =>
    intro cur
    rw [List.foldl_cons, ih, updateField_eq]
    cases h : lastFieldValue marker rest <;> simp [lastFieldValue, h]

theorem foldl_updateLine_summary :
    ∀ (lines : List (List Char)) (pd : ParsedData), (lines.foldl updateLine pd).summary =
      lines.foldl (fun c l => updateField summaryMarker c l) pd.summary := by
  intro lines
  induction lines with
  | nil => intro pd; rfl
  | cons l rest ih => intro pd; rw [List.foldl_cons, List.foldl_cons, ih]; rfl

theorem foldl_updateLine_riskLevel :
    ∀ (lines : List (List Char)) (pd : ParsedData), (lines.foldl updateLine pd).riskLevel =
      lines.foldl (fun c l => updateField riskLevelMarker c l) pd.riskLevel := by
  intro lines
  induction lines with
  | nil => intro pd; rfl
  | cons l rest ih => intro pd; rw [List.foldl_cons, List.foldl_cons, ih]; rfl

theorem foldl_updateLine_riskDetails :
    ∀ (lines : List (List Char)) (pd : ParsedData), (lines.foldl updateLine pd).riskDetails =
      lines.foldl (fun c l => updateField riskDetailsMarker c l) pd.riskDetails := by
  intro lines
  induction lines with
  | nil => intro pd; rfl
  | cons l rest ih => intro pd; rw [List.foldl_cons, List.foldl_cons, ih]; rfl

theorem dropWhile_dropWhile (p : Char → Bool) (l : List Char) :
    (l.dropWhile p).dropWhile p = l.dropWhile p := by
  induction l with
  | nil => rfl
  | cons c rest ih =>
    by_cases h : p c = true <;> simp [List.dropWhile_cons, h, ih]

theorem dropWhile_append_singleton (p : Char → Bool) (c : Char)
    (h : p c = false) :
    ∀ ys : List Char, (ys ++ [c]).dropWhile p = ys.dropWhile p ++ [c] := by
  intro ys
  induction ys with
  | nil => simp [List.dropWhile_cons, h]
  | cons y ys ih =>
    by_cases hy : p y = true <;> simp [List.dropWhile_cons, hy, ih]

theorem pyStrip_idem (l : List Char) : pyStrip (pyStrip l) = pyStrip l := by
  cases hA : l.dropWhile pyIsSpace with
  | nil => simp [pyStrip, hA]
  | cons c A2 =>
    have hpc : pyIsSpace c = false := by
      have hself := dropWhile_dropWhile pyIsSpace l
      rw [hA] at hself
      by_cases h : pyIsSpace c = true
      · rw [List.dropWhile_cons_of_pos h] at hself
        have hlen := congrArg List.length hself
        have hle := (List.dropWhile_sublist (l := A2) pyIsSpace).length_le
        simp at hlen
        omega
      · simpa using h
    have hne : ¬ pyIsSpace c = true := by simp [hpc]
    have hB : pyStrip l = c :: (A2.reverse.dropWhile pyIsSpace).reverse := by
      unfold pyStrip
      rw [hA, List.reverse_cons, dropWhile_append_singleton pyIsSpace c hpc A2.reverse,
        List.reverse_append]
      simp
    rw [hB]
    unfold pyStrip
    rw [List.dropWhile_cons_of_neg hne, List.reverse_cons, List.reverse_reverse,
      dropWhile_append_singleton pyIsSpace c hpc (A2.reverse.dropWhile pyIsSpace),
      dropWhile_dropWhile, List.reverse_append]
    simp

/-- Claim C1: for cleaned content passing the required-field check, field
extraction works over the non-empty trimmed lines of the content, and each
field ends up as the last non-empty stripped remainder of a line starting
with its marker (an empty remainder leaves the current value unchanged),
falling back to the defaults "No summary available" / "UNKNOWN" /
"No details provided"; in particular the content
"SUMMARY: \nRISK_LEVEL: LOW\nRISK_DETAILS: ok" yields the default
summary. -/
theorem claim1_field_extraction (content : List Char)
    (h : hasAllFields content = true) :
    ((parseFields (linesOf content)).summary =
      (lastFieldValue summaryMarker (linesOf content)).getD "No summary available".toList) ∧
    ((parseFields (linesOf content)).riskLevel =
      (lastFieldValue riskLevelMarker (linesOf content)).getD "UNKNOWN".toList) ∧
    ((parseFields (linesOf content)).riskDetails =
      (lastFieldValue riskDetailsMarker (linesOf content)).getD "No details provided".toList) ∧
    (∀ l ∈ linesOf content, l ≠ [] ∧ pyStrip l = l) ∧
    (parseFields (linesOf "SUMMARY: \nRISK_LEVEL: LOW\nRISK_DETAILS: ok".toList)).summary =
      "No summary available".toList := by
  refine ⟨?_, ?_, ?_, ?_, by decide⟩
  · rw [parseFields, foldl_updateLine_summary, foldl_updateField]; rfl
  · rw [parseFields, foldl_updateLine_riskLevel, foldl_updateField]; rfl
  · rw [parseFields, foldl_updateLine_riskDetails, foldl_updateField]; rfl
  · intro l hl
    simp only [linesOf, List.mem_filter, List.mem_map, decide_eq_true_eq] at hl
    obtain ⟨⟨x, _, hxl⟩, hne⟩ := hl
    refine ⟨hne, ?_⟩
    rw [← hxl, pyStrip_idem]

theorem claim1_field_extraction_witness :
    hasAllFields "SUMMARY: \nRISK_LEVEL: LOW\nRISK_DETAILS: ok".toList = true ∧
    (parseFields (linesOf "SUMMARY: \nRISK_LEVEL: LOW\nRISK_DETAILS: ok".toList)).summary =
      "No summary available".toList :=
  ⟨by decide,
    (claim1_field_extraction "SUMMARY: \nRISK_LEVEL: LOW\nRISK_DETAILS: ok".toList
      (by decide)).2.2.2.2⟩

/-- Claim C3: cleaned content that does not contain all three literal markers
(order-independent) makes parsing fail with the missing-required-fields
outcome: status "error" and error text "API response missing required
fields". -/
theorem claim3_missing_fields_error (scans : List (List Char × List Char))
    (content : List Char) (h : hasAllFields content = false) :
    processContent scans content = missingFieldsResponse ∧
    (processContent scans content).status = "error".toList ∧
    (processContent scans content).error =
      some "API response missing required fields".toList := by
  have he : processContent scans content = missingFieldsResponse := by
    simp [processContent, h]
  exact ⟨he, by rw [he]; rfl, by rw [he]; rfl⟩

theorem claim3_missing_fields_error_witness :
    hasAllFields "SUMMARY: hi\nRISK_DETAILS: ok".toList = false ∧
    processContent [] "SUMMARY: hi\nRISK_DETAILS: ok".toList = missingFieldsResponse :=
  ⟨by decide, (claim3_missing_fields_error [] _ (by decide)).1⟩

/-- Claim C5: on the success path the risk level placed into the assembled risk
assessment is always one of LOW / MEDIUM / HIGH / UNKNOWN — any parsed
value outside this set is coerced to UNKNOWN — and the coercion is
non-fatal: the request still returns status "success". -/
theorem claim5_risk_level_invariant (scans : List (List Char × List Char))
    (content : List Char) (h : hasAllFields content = true) :
    (processContent scans content).status = "success".toList ∧
    fourLevels.contains (finalRiskLevel (parseFields (linesOf content))) = true ∧
    (processContent scans content).risk_assessment =
      finalRiskLevel (parseFields (linesOf content)) ++ " - ".toList ++
        (parseFields (linesOf content)).riskDetails ∧
    (∀ pd : ParsedData, fourLevels.contains pd.riskLevel = false →
      finalRiskLevel pd = "UNKNOWN".toList) := by
  refine ⟨?_, ?_, ?_, ?_⟩
  · simp [processContent, h]
  · unfold finalRiskLevel
    by_cases hc : fourLevels.contains (parseFields (linesOf content)).riskLevel = true
    · rw [if_pos hc]; exact hc
    · rw [if_neg hc]; decide
  · simp [processContent, h]
  · intro pd hpd
    unfold finalRiskLevel
    rw [if_neg (by rw [hpd]; exact Bool.false_ne_true)]

theorem claim5_risk_level_invariant_witness :
    hasAllFields "SUMMARY: a\nRISK_LEVEL: SEVERE\nRISK_DETAILS: b".toList = true ∧
    (processContent [] "SUMMARY: a\nRISK_LEVEL: SEVERE\nRISK_DETAILS: b".toList).status =
      "success".toList ∧
    fourLevels.contains
      (finalRiskLevel (parseFields (linesOf "SUMMARY: a\nRISK_LEVEL: SEVERE\nRISK_DETAILS: b".toList))) = true :=
  ⟨by decide, (claim5_risk_level_invariant [] _ (by decide)).1,
    (claim5_risk_level_invariant [] _ (by decide)).2.1⟩

/-- Claim C7: an inquiry with an empty subject, sender, recipient or body is
rejected by the submit handler before any outbound call to the completion
API is issued (a request missing a field entirely is already rejected by
the typed `EmailRequest` model before the backend handler runs). -/
theorem claim7_reject_before_outbound (subject sender recipient body : List Char)
    (h : subject = [] ∨ sender = [] ∨ recipient = [] ∨ body = []) :
    buttonHandler subject sender recipient body = FrontAction.rejectEmptyFields ∧
    systemCallsUpstream subject sender recipient body = false := by
  have hb : buttonHandler subject sender recipient body = FrontAction.rejectEmptyFields := by
    unfold buttonHandler
    rw [if_pos h]
  exact ⟨hb, by unfold systemCallsUpstream; rw [hb]⟩

theorem claim7_reject_before_outbound_witness :
    buttonHandler [] "a".toList "b".toList "c".toList = FrontAction.rejectEmptyFields ∧
    systemCallsUpstream [] "a".toList "b".toList "c".toList = false :=
  claim7_reject_before_outbound [] "a".toList "b".toList "c".toList (Or.inl rfl)

/-- Claim C10: the value recorded for a matching line is the line with every
occurrence of the marker removed (not only the leading one) and then
trimmed: the line "SUMMARY: see SUMMARY: above" records "see  above"
(double space where the inner marker was removed), not
"see SUMMARY: above". -/
theorem claim10_replace_all_occurrences :
    removeAllSub summaryMarker "SUMMARY: see SUMMARY: above".toList = " see  above".toList ∧
    (parseFields (linesOf "SUMMARY: see SUMMARY: above\nRISK_LEVEL: LOW\nRISK_DETAILS: ok".toList)).summary =
      "see  above".toList ∧
    (parseFields (linesOf "SUMMARY: see SUMMARY: above\nRISK_LEVEL: LOW\nRISK_DETAILS: ok".toList)).summary ≠
      "see SUMMARY: above".toList :=
  ⟨by decide, by decide, by decide⟩

theorem containsSub_true_iff (pat : List Char) :
    ∀ l, containsSub pat l = true ↔ pat <:+: l := by
  intro l
  induction l with
  | nil =>
    unfold containsSub
    rw [List.isPrefixOf_iff_prefix]
    exact ⟨fun h => (List.prefix_nil.mp h).symm ▸ List.nil_infix, fun h =>
      (List.infix_nil.mp h).symm ▸ List.nil_prefix⟩
  | cons c rest ih =>
    unfold containsSub
    rw [Bool.or_eq_true, List.isPrefixOf_iff_prefix, ih, List.infix_cons_iff]

theorem isPrefixOf_append_self (m r : List Char) : m.isPrefixOf (m ++ r) = true :=
  List.isPrefixOf_iff_prefix.mpr (List.prefix_append m r)

/-- The reversed `<think>` marker has no non-trivial border: no proper
non-empty prefix of it is also a suffix.  (This is what makes occurrences
of the marker non-overlapping, so the text after the last occurrence can be
located by a first-occurrence scan of the reversed text.) -/
theorem thinkRev_no_border :
    ∀ k, k < thinkMarker.reverse.length → 0 < k →
      List.take k thinkMarker.reverse ≠
        List.drop (thinkMarker.reverse.length - k) thinkMarker.reverse := by decide

theorem not_isPrefixOf_mid (M B A : List Char)
    (hnb : ∀ k, k < M.length → 0 < k →
      List.take k M ≠ List.drop (M.length - k) M)
    (hB : containsSub M B = false) (hne : B ≠ []) :
    ¬ M.isPrefixOf (B ++ M ++ A) = true := by
  intro h
  have hpre : M <+: B ++ (M ++ A) := by
    rw [← List.append_assoc]
    exact List.isPrefixOf_iff_prefix.mp h
  have htake : M = (B ++ (M ++ A)).take M.length := List.prefix_iff_eq_take.mp hpre
  rcases le_or_lt M.length B.length with hle | hlt
  · have hMB : M = B.take M.length := by
      conv_lhs => rw [htake]
      rw [List.take_append_eq_append_take, Nat.sub_eq_zero_of_le hle,
        List.take_zero, List.append_nil]
    have hpb : M <+: B := by rw [hMB]; exact List.take_prefix M.length B
    have : containsSub M B = true := (containsSub_true_iff M B).mpr hpb.isInfix
    rw [hB] at this
    exact Bool.false_ne_true this
  · have hBpos : 0 < B.length := List.length_pos.mpr hne
    have hk : M = B ++ M.take (M.length - B.length) := by
      conv_lhs => rw [htake]
      rw [List.take_append_eq_append_take,
        List.take_of_length_le (Nat.le_of_lt hlt),
        List.take_append_eq_append_take,
        Nat.sub_eq_zero_of_le (Nat.sub_le M.length B.length),
        List.take_zero, List.append_nil]
    have hdrop : M.drop B.length = M.take (M.length - B.length) := by
      have := congrArg (List.drop B.length) hk
      rwa [List.drop_left] at this
    have hcontr := hnb (M.length - B.length)
      (by omega) (by omega)
    rw [show M.length - (M.length - B.length) = B.length by omega, ← hdrop] at hcontr
    exact hcontr rfl

theorem beforeFirst_mid (M : List Char)
    (hnb : ∀ k, k < M.length → 0 < k →
      List.take k M ≠ List.drop (M.length - k) M)
    (hM : M ≠ []) :
    ∀ B A, containsSub M B = false → beforeFirst M (B ++ M ++ A) = some B := by
  intro B
  induction B with
  | nil =>
    intro A _
    rcases M with _ | ⟨m0, M2⟩
    · exact absurd rfl hM
    · show beforeFirst (m0 :: M2) ([] ++ (m0 :: M2) ++ A) = some []
      rw [List.nil_append]
      show beforeFirst (m0 :: M2) (m0 :: (M2 ++ A)) = some []
      unfold beforeFirst
      rw [if_pos (show (m0 :: M2).isPrefixOf (m0 :: (M2 ++ A)) = true from
        isPrefixOf_append_self (m0 :: M2) A)]
  | cons c B2 ih =>
    intro A hB
    have hB2 : containsSub M B2 = false := by
      unfold containsSub at hB
      exact (Bool.or_eq_false_iff.mp hB).2
    have hnp : ¬ M.isPrefixOf ((c :: B2) ++ M ++ A) = true :=
      not_isPrefixOf_mid M (c :: B2) A hnb hB (List.cons_ne_nil c B2)
    have hshape : (c :: B2) ++ M ++ A = c :: (B2 ++ M ++ A) := by simp
    rw [hshape] at hnp ⊢
    unfold beforeFirst
    rw [if_neg hnp, ih A hB2]
    rfl

theorem containsSub_reverse (pat l : List Char) :
    containsSub pat.reverse l.reverse = containsSub pat l := by
  cases hc : containsSub pat l with
  | true =>
    have := (containsSub_true_iff pat l).mp hc
    exact (containsSub_true_iff pat.reverse l.reverse).mpr
      (List.reverse_infix.mpr this)
  | false =>
    cases hcr : containsSub pat.reverse l.reverse with
    | true =>
      have := List.reverse_infix.mp ((containsSub_true_iff pat.reverse l.reverse).mp hcr)
      rw [(containsSub_true_iff pat l).mpr this] at hc
      exact absurd hc (by simp)
    | false => rfl

theorem containsSub_mid (M B A : List Char) :
    containsSub M (B ++ M ++ A) = true :=
  (containsSub_true_iff M (B ++ M ++ A)).mpr ⟨B, A, rfl⟩

theorem afterLastMarker_think (x b : List Char)
    (hb : containsSub thinkMarker b = false) :
    afterLastMarker thinkMarker (x ++ thinkMarker ++ b) = b := by
  unfold afterLastMarker
  have hrev : (x ++ thinkMarker ++ b).reverse =
      b.reverse ++ thinkMarker.reverse ++ x.reverse := by simp
  have hbrev : containsSub thinkMarker.reverse b.reverse = false := by
    rw [containsSub_reverse, hb]
  rw [hrev, beforeFirst_mid thinkMarker.reverse thinkRev_no_border (by decide)
    b.reverse x.reverse hbrev]
  simp

theorem clean_response_after_last (x b : List Char)
    (hb : containsSub thinkMarker b = false) :
    clean_response (x ++ thinkMarker ++ b) = clean_response b := by
  unfold clean_response
  rw [containsSub_mid thinkMarker x b, hb, afterLastMarker_think x b hb]
  simp

theorem hasTag_cons_lt (l : List Char) :
    hasTag ('<' :: l) = ((tagSpan l).isSome || hasTag l) := by
  simp [hasTag]

theorem hasTag_cons_ne {c : Char} (h : c ≠ '<') (l : List Char) :
    hasTag (c :: l) = hasTag l := by
  simp [hasTag, h]

theorem tagSpan_cons_gt (l : List Char) : tagSpan ('>' :: l) = none := by
  simp [tagSpan]

theorem skipToGt_some_mem {l r : List Char} (h : skipToGt l = some r) : '>' ∈ l := by
  induction l with
  | nil => exact absurd h (by simp [skipToGt])
  | cons c rest ih =>
    simp only [skipToGt] at h
    by_cases hc : c = '>'
    · exact hc ▸ List.mem_cons_self c rest
    · rw [if_neg hc] at h
      exact List.mem_cons_of_mem c (ih h)

theorem tagSpan_some_mem {l r : List Char} (h : tagSpan l = some r) : '>' ∈ l := by
  cases l with
  | nil => exact absurd h (by simp [tagSpan])
  | cons c rest =>
    simp only [tagSpan] at h
    by_cases hc : c = '>'
    · rw [if_pos hc] at h; exact absurd h (by simp)
    · rw [if_neg hc] at h
      exact List.mem_cons_of_mem c (skipToGt_some_mem h)

theorem skipToGt_none_of_not_mem {l : List Char} (h : '>' ∉ l) : skipToGt l = none := by
  induction l with
  | nil => rfl
  | cons c rest ih =>
    simp only [skipToGt]
    rw [if_neg (fun hc : c = '>' => h (hc ▸ List.mem_cons_self c rest))]
    exact ih (fun hm => h (List.mem_cons_of_mem c hm))

theorem skipToGt_none_not_mem : ∀ {l : List Char}, skipToGt l = none → '>' ∉ l := by
  intro l
  induction l with
  | nil => intro _ hm; exact absurd hm (List.not_mem_nil _)
  | cons c rest ih =>
    intro h hm
    simp only [skipToGt] at h
    by_cases hc : c = '>'
    · rw [if_pos hc] at h; exact absurd h (by simp)
    · rw [if_neg hc] at h
      rcases List.mem_cons.mp hm with h1 | h2
      · exact hc h1.symm
      · exact ih h h2

theorem tagSpan_none_of_not_mem {l : List Char} (h : '>' ∉ l) : tagSpan l = none := by
  cases l with
  | nil => rfl
  | cons c rest =>
    simp only [tagSpan]
    rw [if_neg (fun hc : c = '>' => h (hc ▸ List.mem_cons_self c rest))]
    exact skipToGt_none_of_not_mem (fun hm => h (List.mem_cons_of_mem c hm))

theorem hasTag_of_not_mem {l : List Char} (h : '>' ∉ l) : hasTag l = false := by
  induction l with
  | nil => rfl
  | cons c rest ih =>
    have hrest : '>' ∉ rest := fun hm => h (List.mem_cons_of_mem c hm)
    simp only [hasTag]
    by_cases hc : c = '<'
    · rw [if_pos hc, tagSpan_none_of_not_mem hrest, ih hrest]
      rfl
    · rw [if_neg hc]
      exact ih hrest

theorem removeTagsAux_no_tag :
    ∀ (l : List Char) (st : Option (List Char)),
      (∀ buf, st = some buf → '>' ∉ buf) → hasTag (removeTagsAux st l) = false := by
  intro l
  induction l with
  | nil =>
    intro st hst
    cases st with
    | none => rfl
    | some buf =>
      have hb : '>' ∉ buf.reverse := by
        rw [List.mem_reverse]
        exact hst buf rfl
      show hasTag ('<' :: buf.reverse) = false
      rw [hasTag_cons_lt, tagSpan_none_of_not_mem hb, hasTag_of_not_mem hb]
      rfl
  | cons c rest ih =>
    intro st hst
    cases st with
    | none =>
      by_cases hc : c = '<'
      · subst hc
        rw [show removeTagsAux none ('<' :: rest) = removeTagsAux (some []) rest from by
          simp [removeTagsAux]]
        exact ih (some []) (by intro buf hb; cases hb; simp)
      · rw [show removeTagsAux none (c :: rest) = c :: removeTagsAux none rest from by
          simp [removeTagsAux, hc]]
        rw [hasTag_cons_ne hc]
        exact ih none (by intro buf hb; cases hb)
    | some buf =>
      have hbuf : '>' ∉ buf := hst buf rfl
      by_cases hc : c = '>'
      · subst hc
        cases buf with
        | nil =>
          rw [show removeTagsAux (some []) ('>' :: rest) =
              '<' :: '>' :: removeTagsAux none rest from by simp [removeTagsAux]]
          rw [hasTag_cons_lt, tagSpan_cons_gt,
            hasTag_cons_ne (by decide : ('>' : Char) ≠ '<'),
            ih none (by intro buf hb; cases hb)]
          rfl
        | cons b bs =>
          rw [show removeTagsAux (some (b :: bs)) ('>' :: rest) =
              removeTagsAux none rest from by simp [removeTagsAux]]
          exact ih none (by intro buf hb; cases hb)
      · rw [show removeTagsAux (some buf) (c :: rest) =
            removeTagsAux (some (c :: buf)) rest from by simp [removeTagsAux, hc]]
        refine ih (some (c :: buf)) ?_
        intro b2 hb
        cases hb
        intro hmem
        rcases List.mem_cons.mp hmem with h1 | h2
        · exact hc h1.symm
        · exact hbuf h2

theorem removeTags_no_tag (l : List Char) : hasTag (removeTags l) = false :=
  removeTagsAux_no_tag l none (by intro buf hb; cases hb)

theorem normCRLF_cons_ne (c : Char) (rest : List Char)
    (hne : ∀ r1, c = '\r' → rest = '\n' :: r1 → False) :
    normCRLF (c :: rest) = c :: normCRLF rest := by
  rw [normCRLF.eq_def]
  split
  · rename_i rest1 heq
    injection heq with h1 h2
    exact absurd trivial (fun _ => hne rest1 h1 h2)
  · rename_i c1 rest1 heq
    injection heq with h1 h2
    subst h1; subst h2; rfl
  · rename_i heq
    exact absurd heq (by simp)

theorem mem_normCRLF : ∀ (l : List Char) (x : Char), x ∈ normCRLF l → x ∈ l := by
  intro l
  induction l using normCRLF.induct with
  | case1 rest ih =>
    intro x hx
    simp only [normCRLF] at hx
    rcases List.mem_cons.mp hx with h1 | h2
    · simp [h1]
    · simp [ih x h2]
  | case2 c rest hne ih =>
    intro x hx
    rw [normCRLF_cons_ne c rest hne] at hx
    rcases List.mem_cons.mp hx with h1 | h2
    · simp [h1]
    · simp [ih x h2]
  | case3 =>
    intro x hx
    simpa [normCRLF] using hx

theorem tagSpan_normCRLF_none {rest : List Char} (h : tagSpan rest = none) :
    tagSpan (normCRLF rest) = none := by
  cases rest with
  | nil => exact h
  | cons d rest2 =>
    simp only [tagSpan] at h
    by_cases hd : d = '>'
    · subst hd
      rw [normCRLF_cons_ne '>' rest2 (fun r1 hc _ => by exact absurd hc (by decide))]
      exact tagSpan_cons_gt (normCRLF rest2)
    · rw [if_neg hd] at h
      have hmem : '>' ∉ d :: rest2 := by
        intro hm
        rcases List.mem_cons.mp hm with h1 | h2
        · exact hd h1.symm
        · exact skipToGt_none_not_mem h h2
      exact tagSpan_none_of_not_mem
        (fun hm => hmem (mem_normCRLF (d :: rest2) '>' hm))

theorem hasTag_normCRLF : ∀ {l : List Char}, hasTag l = false →
    hasTag (normCRLF l) = false := by
  intro l
  induction l using normCRLF.induct with
  | case1 rest ih =>
    intro h
    rw [hasTag_cons_ne (by decide) , hasTag_cons_ne (by decide)] at h
    simp only [normCRLF]
    rw [hasTag_cons_ne (by decide)]
    exact ih h
  | case2 c rest hne ih =>
    intro h
    rw [normCRLF_cons_ne c rest hne]
    by_cases hc : c = '<'
    · subst hc
      rw [hasTag_cons_lt] at h
      obtain ⟨h1, h2⟩ := Bool.or_eq_false_iff.mp h
      have hnone : tagSpan rest = none := by
        cases hts : tagSpan rest
        · rfl
        · rw [hts] at h1; simp at h1
      rw [hasTag_cons_lt, tagSpan_normCRLF_none hnone, ih h2]
      rfl
    · rw [hasTag_cons_ne hc] at h
      rw [hasTag_cons_ne hc]
      exact ih h
  | case3 => intro h; exact h

theorem pyStrip_infix_self (l : List Char) : pyStrip l <:+: l := by
  have h1 : List.IsSuffix (l.dropWhile pyIsSpace) l := List.dropWhile_suffix pyIsSpace
  have h2 : List.IsSuffix ((l.dropWhile pyIsSpace).reverse.dropWhile pyIsSpace)
      (l.dropWhile pyIsSpace).reverse := List.dropWhile_suffix pyIsSpace
  have h3 : pyStrip l <+: l.dropWhile pyIsSpace := by
    unfold pyStrip
    have := List.reverse_prefix.mpr h2
    rwa [List.reverse_reverse] at this
  exact h3.isInfix.trans h1.isInfix

theorem skipToGt_append {l r : List Char} (h : skipToGt l = some r) (t : List Char) :
    skipToGt (l ++ t) = some (r ++ t) := by
  induction l with
  | nil => exact absurd h (by simp [skipToGt])
  | cons c rest ih =>
    simp only [skipToGt] at h
    by_cases hc : c = '>'
    · rw [if_pos hc] at h
      injection h with h2
      show skipToGt (c :: (rest ++ t)) = some (r ++ t)
      simp only [skipToGt]
      rw [if_pos hc, h2]
    · rw [if_neg hc] at h
      show skipToGt (c :: (rest ++ t)) = some (r ++ t)
      simp only [skipToGt]
      rw [if_neg hc]
      exact ih h

theorem tagSpan_append {l r : List Char} (h : tagSpan l = some r) (t : List Char) :
    tagSpan (l ++ t) = some (r ++ t) := by
  cases l with
  | nil => exact absurd h (by simp [tagSpan])
  | cons c rest =>
    simp only [tagSpan] at h
    by_cases hc : c = '>'
    · rw [if_pos hc] at h; exact absurd h (by simp)
    · rw [if_neg hc] at h
      show tagSpan (c :: (rest ++ t)) = some (r ++ t)
      simp only [tagSpan]
      rw [if_neg hc]
      exact skipToGt_append h t

theorem hasTag_append_right {l : List Char} (h : hasTag l = true) (t : List Char) :
    hasTag (l ++ t) = true := by
  induction l with
  | nil => exact absurd h (by simp [hasTag])
  | cons c rest ih =>
    show hasTag (c :: (rest ++ t)) = true
    by_cases hc : c = '<'
    · subst hc
      rw [hasTag_cons_lt] at h ⊢
      rw [Bool.or_eq_true] at h
      rcases h with h1 | h2
      · cases hts : tagSpan rest with
        | none => rw [hts] at h1; simp at h1
        | some r => rw [tagSpan_append hts t]; rfl
      · rw [ih h2]; simp
    · rw [hasTag_cons_ne hc] at h ⊢
      exact ih h

theorem hasTag_append_left (s : List Char) {l : List Char} (h : hasTag l = true) :
    hasTag (s ++ l) = true := by
  induction s with
  | nil => exact h
  | cons c s2 ih =>
    show hasTag (c :: (s2 ++ l)) = true
    by_cases hc : c = '<'
    · subst hc
      rw [hasTag_cons_lt, ih]
      simp
    · rw [hasTag_cons_ne hc]
      exact ih

theorem hasTag_infix_false {l₁ l₂ : List Char} (h : l₁ <:+: l₂)
    (h2 : hasTag l₂ = false) : hasTag l₁ = false := by
  cases ht : hasTag l₁ with
  | false => rfl
  | true =>
    obtain ⟨s, t, hst⟩ := h
    have hup : hasTag (s ++ (l₁ ++ t)) = true :=
      hasTag_append_left s (hasTag_append_right ht t)
    rw [← List.append_assoc, hst, h2] at hup
    exact absurd hup (by simp)

theorem clean_response_no_tag (content : List Char) :
    hasTag (clean_response content) = false := by
  unfold clean_response
  exact hasTag_infix_false (pyStrip_infix_self _)
    (hasTag_normCRLF (removeTags_no_tag _))

/-- Claim C4: content cleaning keeps only the text after the last occurrence of
the reasoning marker, so prepending any text followed by the marker to
marker-free content cleans to the same result; the cleaned result of any
content contains no angle-bracket tag (no substring matching the tag
pattern survives), and it carries no surrounding whitespace (stripping it
again changes nothing). -/
theorem claim4_clean_response_spec (x b content : List Char)
    (hb : containsSub thinkMarker b = false) :
    clean_response (x ++ thinkMarker ++ b) = clean_response b ∧
    hasTag (clean_response content) = false ∧
    pyStrip (clean_response content) = clean_response content :=
  ⟨clean_response_after_last x b hb, clean_response_no_tag content, by
    show pyStrip (pyStrip _) = pyStrip _
    exact pyStrip_idem _⟩

theorem claim4_clean_response_spec_witness :
    containsSub thinkMarker " tail".toList = false ∧
    clean_response ("pre".toList ++ thinkMarker ++ " tail".toList) =
      clean_response " tail".toList ∧
    hasTag (clean_response "q <i>zz</i> s".toList) = false :=
  ⟨by decide,
    (claim4_clean_response_spec "pre".toList " tail".toList [] (by decide)).1,
    (claim4_clean_response_spec "pre".toList " tail".toList
      "q <i>zz</i> s".toList (by decide)).2.1⟩

theorem insertAssoc_of_mem {f : List Char → List Char}
    {m : List (List Char × List Char)} {k : List Char}
    (hm : ∀ p ∈ m, p.2 = f p.1) (hk : m.any (fun p => p.1 == k) = true) :
    insertAssoc m k (f k) = m := by
  unfold insertAssoc
  rw [if_pos hk]
  conv_rhs => rw [← List.map_id m]
  apply List.map_congr_left
  intro p hp
  obtain ⟨p1, p2⟩ := p
  by_cases hpk : (p1 == k) = true
  · rw [if_pos hpk]
    have h1 : p1 = k := eq_of_beq hpk
    have h2 : p2 = f p1 := hm (p1, p2) hp
    rw [h1] at h2 ⊢
    rw [h2]
    rfl
  · rw [if_neg hpk]
    rfl

theorem insertAssoc_of_not_mem {m : List (List Char × List Char)}
    {k val : List Char} (hk : m.any (fun p => p.1 == k) = false) :
    insertAssoc m k val = m ++ [(k, val)] := by
  unfold insertAssoc
  rw [if_neg (by rw [hk]; exact Bool.false_ne_true)]

theorem dedupFirst_congr :
    ∀ (l s1 s2 : List (List Char)),
      (∀ x, s1.any (fun s => s == x) = s2.any (fun s => s == x)) →
      dedupFirst s1 l = dedupFirst s2 l := by
  intro l
  induction l with
  | nil => intro s1 s2 _; rfl
  | cons k rest ih =>
    intro s1 s2 h
    show (if s1.any (fun s => s == k) then dedupFirst s1 rest
          else k :: dedupFirst (k :: s1) rest) =
        (if s2.any (fun s => s == k) then dedupFirst s2 rest
          else k :: dedupFirst (k :: s2) rest)
    rw [h k]
    by_cases hk : s2.any (fun s => s == k) = true
    · rw [if_pos hk, if_pos hk]
      exact ih s1 s2 h
    · rw [if_neg hk, if_neg hk]
      refine congrArg (k :: ·) (ih (k :: s1) (k :: s2) ?_)
      intro x
      rw [List.any_cons, List.any_cons, h x]

theorem scan_links_foldl (v : Option (List Char → Bool)) :
    ∀ (links : List (List Char)) (acc : List (List Char × List Char)),
      (∀ p ∈ acc, p.2 = classifyLink v p.1) →
      links.foldl (fun m link => insertAssoc m link (classifyLink v link)) acc =
        acc ++ (dedupFirst (acc.map Prod.fst) links).map
          (fun k => (k, classifyLink v k)) := by
  intro links
  induction links with
  | nil => intro acc _; simp [dedupFirst]
  | cons k rest ih =>
    intro acc hm
    rw [List.foldl_cons]
    have hany : (acc.map Prod.fst).any (fun s => s == k) =
        acc.any (fun p => p.1 == k) := by
      clear hm ih
      induction acc with
      | nil => rfl
      | cons p r ihm => simp only [List.map_cons, List.any_cons, ihm]
    show List.foldl _ (insertAssoc acc k (classifyLink v k)) rest = _
    by_cases hk : acc.any (fun p => p.1 == k) = true
    · rw [insertAssoc_of_mem hm hk, ih acc hm]
      show _ = acc ++ (dedupFirst (acc.map Prod.fst) (k :: rest)).map _
      rw [show dedupFirst (acc.map Prod.fst) (k :: rest) =
          dedupFirst (acc.map Prod.fst) rest from by
        show (if (acc.map Prod.fst).any (fun s => s == k) then _ else _) = _
        rw [hany, if_pos hk]]
    · have hkf : acc.any (fun p => p.1 == k) = false := by
        cases h2 : acc.any (fun p => p.1 == k)
        · rfl
        · exact absurd h2 hk
      rw [insertAssoc_of_not_mem hkf,
        ih (acc ++ [(k, classifyLink v k)]) (by
          intro p hp
          rcases List.mem_append.mp hp with h1 | h2
          · exact hm p h1
          · rw [List.mem_singleton.mp h2])]
      show _ = acc ++ (dedupFirst (acc.map Prod.fst) (k :: rest)).map _
      rw [show dedupFirst (acc.map Prod.fst) (k :: rest) =
          k :: dedupFirst (k :: acc.map Prod.fst) rest from by
        show (if (acc.map Prod.fst).any (fun s => s == k) then _ else _) = _
        rw [hany, if_neg (by rw [hkf]; exact Bool.false_ne_true)]]
      rw [dedupFirst_congr rest ((acc ++ [(k, classifyLink v k)]).map Prod.fst)
        (k :: acc.map Prod.fst) (by
          intro x
          rw [List.map_append, List.any_append, List.any_cons]
          simp [Bool.or_comm])]
      simp

theorem scan_links_eq_dedup (v : Option (List Char → Bool))
    (links : List (List Char)) :
    scan_links v links =
      (dedupFirst [] links).map (fun k => (k, classifyLink v k)) := by
  unfold scan_links
  rw [scan_links_foldl v links [] (by intro p hp; exact absurd hp (List.not_mem_nil p))]
  rfl

theorem matchUrlAt_props {l url rest2 : List Char}
    (h : matchUrlAt l = some (url, rest2)) :
    (httpMarker.isPrefixOf url || httpsMarker.isPrefixOf url) = true ∧
    url.all (fun c => !(pyIsSpace c)) = true := by
  unfold matchUrlAt at h
  by_cases h8 : httpsMarker.isPrefixOf l = true
  · rw [if_pos h8] at h
    unfold urlFrom at h
    by_cases hrun : (List.drop 8 l).takeWhile (fun c => !(pyIsSpace c)) = []
    · rw [if_pos hrun] at h; exact absurd h (by simp)
    · rw [if_neg hrun] at h
      injection h with h1
      injection h1 with hurl _
      constructor
      · rw [← hurl, isPrefixOf_append_self]
        simp
      · rw [← hurl, List.all_append, Bool.and_eq_true]
        refine ⟨by decide, ?_⟩
        rw [List.all_eq_true]
        intro c hc
        simpa using List.mem_takeWhile_imp hc
  · rw [if_neg h8] at h
    by_cases h7 : httpMarker.isPrefixOf l = true
    · rw [if_pos h7] at h
      unfold urlFrom at h
      by_cases hrun : (List.drop 7 l).takeWhile (fun c => !(pyIsSpace c)) = []
      · rw [if_pos hrun] at h; exact absurd h (by simp)
      · rw [if_neg hrun] at h
        injection h with h1
        injection h1 with hurl _
        constructor
        · rw [← hurl, isPrefixOf_append_self]
          simp
        · rw [← hurl, List.all_append, Bool.and_eq_true]
          refine ⟨by decide, ?_⟩
          rw [List.all_eq_true]
          intro c hc
          simpa using List.mem_takeWhile_imp hc
    · rw [if_neg h7] at h
      exact absurd h (by simp)

theorem extractAux_props :
    ∀ (fuel : Nat) (l : List Char) (u : List Char), u ∈ extractAux fuel l →
      (httpMarker.isPrefixOf u || httpsMarker.isPrefixOf u) = true ∧
      u.all (fun c => !(pyIsSpace c)) = true := by
  intro fuel
  induction fuel with
  | zero =>
    intro l u hu
    cases l with
    | nil => exact absurd hu (by simp [extractAux])
    | cons c rest => exact absurd hu (by simp [extractAux])
  | succ fuel ih =>
    intro l u hu
    cases l with
    | nil => exact absurd hu (by simp [extractAux])
    | cons c rest =>
      simp only [extractAux] at hu
      cases hmatch : matchUrlAt (c :: rest) with
      | none =>
        rw [hmatch] at hu
        exact ih rest u hu
      | some pr =>
        obtain ⟨url, rest2⟩ := pr
        rw [hmatch] at hu
        rcases List.mem_cons.mp hu with h1 | h2
        · exact h1 ▸ matchUrlAt_props hmatch
        · exact ih rest2 u h2

/-- Claim C6: scanning links over a body produces exactly one entry per distinct
extracted URL, in first-occurrence order, each classified by the optional
validation capability (SAFE / INVALID when the capability is present,
UNKNOWN for every token when absent); every extracted token starts with
`http://` or `https://` and contains no whitespace; and the body
"Click http://example.com/pay now" with no capability yields exactly
the mapping from "http://example.com/pay" to UNKNOWN. -/
theorem claim6_link_scan_spec (v : Option (List Char → Bool)) (body : List Char) :
    scan_links v (extract_links body) =
      (dedupFirst [] (extract_links body)).map (fun k => (k, classifyLink v k)) ∧
    (∀ check, classifyLink (some check) body =
      (if check body then "SAFE".toList else "INVALID".toList)) ∧
    classifyLink none body = "UNKNOWN".toList ∧
    (extract_links body).all
      (fun u => httpMarker.isPrefixOf u || httpsMarker.isPrefixOf u) = true ∧
    (extract_links body).all (fun u => u.all (fun c => !(pyIsSpace c))) = true ∧
    scan_links none (extract_links "Click http://example.com/pay now".toList) =
      [("http://example.com/pay".toList, "UNKNOWN".toList)] := by
  refine ⟨scan_links_eq_dedup v (extract_links body), fun check => rfl, rfl, ?_, ?_,
    by decide⟩
  · rw [List.all_eq_true]
    intro u hu
    exact (extractAux_props body.length body u hu).1
  · rw [List.all_eq_true]
    intro u hu
    exact (extractAux_props body.length body u hu).2

theorem append_ne_nil_left {a : List Char} (h : a ≠ []) (b : List Char) :
    a ++ b ≠ [] := by
  intro hab
  rcases List.append_eq_nil.mp hab with ⟨h1, _⟩
  exact h h1

theorem validate_payload_build (email : EmailRequest) :
    validate_payload (buildPayload email) = true := rfl

theorem validate_response_cases (j : Json) :
    validate_response j = none ∨
      ∃ m, validate_response j = some m ∧ m ≠ [] := by
  unfold validate_response
  repeat' first
    | exact Or.inl rfl
    | exact Or.inr ⟨_, rfl, by decide⟩
    | split

theorem processContent_eq_missing {content : List Char}
    (h : hasAllFields content = false) (scans : List (List Char × List Char)) :
    processContent scans content = missingFieldsResponse := by
  simp [processContent, h]

theorem processContent_eq_success {content : List Char}
    (h : hasAllFields content = true) (scans : List (List Char × List Char)) :
    processContent scans content =
      { summary := (parseFields (linesOf content)).summary
      , status := "success".toList
      , risk_assessment := finalRiskLevel (parseFields (linesOf content)) ++
          " - ".toList ++ (parseFields (linesOf content)).riskDetails
      , error := none
      , link_scan_results := some scans } := by
  simp [processContent, h]

theorem summarize_email_exn (v : Option (List Char → Bool)) (email : EmailRequest)
    (msg : List Char) :
    summarize_email v email (Upstream.exn msg) =
      mkErrorResponse ("Request failed: ".toList ++ msg) := by
  simp only [summarize_email, validate_payload_build, if_true]

theorem summarize_email_non200 (v : Option (List Char → Bool)) (email : EmailRequest)
    (status : Nat) (text : List Char) (json : Json) (h : ¬ status = 200) :
    summarize_email v email (Upstream.resp status text json) =
      mkErrorResponse (apiErrorMsg status text) := by
  simp only [summarize_email, validate_payload_build, if_true]
  rw [if_neg h]

theorem summarize_email_invalid_env (v : Option (List Char → Bool))
    (email : EmailRequest) (text : List Char) (json : Json) (m : List Char)
    (h : validate_response json = some m) :
    summarize_email v email (Upstream.resp 200 text json) = mkErrorResponse m := by
  simp only [summarize_email, validate_payload_build, if_true]
  rw [h]

theorem summarize_email_nostr (v : Option (List Char → Bool))
    (email : EmailRequest) (text : List Char) (json : Json)
    (hv : validate_response json = none) (hc : jsonContent json = none) :
    summarize_email v email (Upstream.resp 200 text json) =
      mkErrorResponse "Request failed: content is not a string".toList := by
  simp only [summarize_email, validate_payload_build, if_true]
  rw [hv, hc]

theorem summarize_email_200 (v : Option (List Char → Bool))
    (email : EmailRequest) (text : List Char) (json : Json) (raw : List Char)
    (hv : validate_response json = none) (hc : jsonContent json = some raw) :
    summarize_email v email (Upstream.resp 200 text json) =
      processContent (scan_links v (extract_links email.body))
        (clean_response (pyStrip raw)) := by
  simp only [summarize_email, validate_payload_build, if_true]
  rw [hv, hc]

theorem sample_summarize_non200 (email : EmailRequest) (status : Nat)
    (text : List Char) (json : Json) (h : ¬ status = 200) :
    sample_summarize_email email (SampleUpstream.resp status text json) =
      mkErrorResponse (apiErrorMsg status text) := by
  simp only [sample_summarize_email]
  rw [if_neg h]

theorem sample_summarize_nostr (email : EmailRequest) (text : List Char)
    (json : Json) (hc : jsonContent json = none) :
    sample_summarize_email email (SampleUpstream.resp 200 text json) =
      mkErrorResponse "Request failed: missing envelope key".toList := by
  simp only [sample_summarize_email, if_true]
  rw [hc]

theorem sample_summarize_200 (email : EmailRequest) (text : List Char)
    (json : Json) (raw : List Char) (hc : jsonContent json = some raw) :
    sample_summarize_email email (SampleUpstream.resp 200 text json) =
      sampleProcessContent (clean_response (pyStrip raw)) := by
  simp only [sample_summarize_email, if_true]
  rw [hc]

theorem sampleProcessContent_empty {content : List Char} (h : content = []) :
    sampleProcessContent content = emptyResponseOutcome := by
  simp [sampleProcessContent, h]

theorem sampleProcessContent_missing {content : List Char} (h1 : content ≠ [])
    (h2 : hasAllFields content = false) :
    sampleProcessContent content = missingFieldsResponse := by
  simp [sampleProcessContent, h1, h2]

theorem sampleProcessContent_success {content : List Char} (h1 : content ≠ [])
    (h2 : hasAllFields content = true) :
    sampleProcessContent content =
      { summary := (parseFields (linesOf content)).summary
      , status := "success".toList
      , risk_assessment := finalRiskLevel (parseFields (linesOf content)) ++
          " - ".toList ++ (parseFields (linesOf content)).riskDetails
      , error := none
      , link_scan_results := none } := by
  simp [sampleProcessContent, h1, h2]

theorem errorOutcome_mk {msg : List Char} (h : msg ≠ []) :
    errorOutcome (mkErrorResponse msg) :=
  ⟨rfl, msg, rfl, h⟩

theorem errorOutcome_missingFields : errorOutcome missingFieldsResponse :=
  ⟨rfl, _, rfl, by decide⟩

theorem errorOutcome_emptyResponse : errorOutcome emptyResponseOutcome :=
  ⟨rfl, _, rfl, by decide⟩

theorem apiErrorMsg_ne_nil (status : Nat) (text : List Char) :
    apiErrorMsg status text ≠ [] := by
  unfold apiErrorMsg
  apply append_ne_nil_left
  apply append_ne_nil_left
  apply append_ne_nil_left
  decide

theorem main_failure_error (v : Option (List Char → Bool)) (email : EmailRequest)
    (up : Upstream) (hm : mainFailure up = true) :
    errorOutcome (summarize_email v email up) := by
  cases up with
  | exn msg =>
    rw [summarize_email_exn]
    exact errorOutcome_mk (append_ne_nil_left (by decide) msg)
  | resp status text json =>
    by_cases h200 : status = 200
    · subst h200
      simp only [mainFailure] at hm
      rw [show ((200 : Nat) == 200) = true from rfl] at hm
      simp only [Bool.not_true, Bool.false_or] at hm
      cases hv : validate_response json with
      | some m =>
        rw [summarize_email_invalid_env v email text json m hv]
        rcases validate_response_cases json with hn | ⟨m2, hm2, hne2⟩
        · rw [hv] at hn; exact absurd hn (by simp)
        · rw [hv] at hm2
          injection hm2 with hmm
          exact errorOutcome_mk (hmm ▸ hne2)
      | none =>
        rw [hv] at hm
        simp only [Option.isSome_none, Bool.false_or] at hm
        cases hc : jsonContent json with
        | none =>
          rw [summarize_email_nostr v email text json hv hc]
          exact errorOutcome_mk (by decide)
        | some raw =>
          rw [hc] at hm
          have hm2 : (!(hasAllFields (clean_response (pyStrip raw)))) = true := hm
          have hfields : hasAllFields (clean_response (pyStrip raw)) = false := by
            cases hf : hasAllFields (clean_response (pyStrip raw))
            · rfl
            · rw [hf] at hm2; exact absurd hm2 (by decide)
          rw [summarize_email_200 v email text json raw hv hc,
            processContent_eq_missing hfields]
          exact errorOutcome_missingFields
    · rw [summarize_email_non200 v email status text json h200]
      exact errorOutcome_mk (apiErrorMsg_ne_nil status text)

theorem sample_failure_error (email : EmailRequest) (sup : SampleUpstream)
    (hs : sampleFailure sup = true) :
    errorOutcome (sample_summarize_email email sup) := by
  cases sup with
  | timeoutExn isConnect msg =>
    show errorOutcome (mkErrorResponse _)
    cases isConnect
    · exact errorOutcome_mk (by decide)
    · exact errorOutcome_mk (by decide)
  | retryExn msg => exact errorOutcome_mk (by decide)
  | otherExn msg => exact errorOutcome_mk (append_ne_nil_left (by decide) msg)
  | resp status text json =>
    by_cases h200 : status = 200
    · subst h200
      simp only [sampleFailure] at hs
      rw [show ((200 : Nat) == 200) = true from rfl] at hs
      simp only [Bool.not_true, Bool.false_or] at hs
      cases hc : jsonContent json with
      | none =>
        rw [sample_summarize_nostr email text json hc]
        exact errorOutcome_mk (by decide)
      | some raw =>
        rw [hc] at hs
        have hs2 : (decide (clean_response (pyStrip raw) = []) ||
            !(hasAllFields (clean_response (pyStrip raw)))) = true := hs
        rw [sample_summarize_200 email text json raw hc]
        by_cases hemp : clean_response (pyStrip raw) = []
        · rw [sampleProcessContent_empty hemp]
          exact errorOutcome_emptyResponse
        · have hfields : hasAllFields (clean_response (pyStrip raw)) = false := by
            cases hf : hasAllFields (clean_response (pyStrip raw))
            · rfl
            · rw [hf] at hs2
              simp [hemp] at hs2
          rw [sampleProcessContent_missing hemp hfields]
          exact errorOutcome_missingFields
    · rw [sample_summarize_non200 email status text json h200]
      exact errorOutcome_mk (apiErrorMsg_ne_nil status text)

theorem main_status_wf (v : Option (List Char → Bool)) (email : EmailRequest)
    (up : Upstream) :
    (summarize_email v email up).status = "success".toList ∨
      (summarize_email v email up).status = "error".toList := by
  cases up with
  | exn msg => rw [summarize_email_exn]; exact Or.inr rfl
  | resp status text json =>
    by_cases h200 : status = 200
    · subst h200
      cases hv : validate_response json with
      | some m => rw [summarize_email_invalid_env v email text json m hv]; exact Or.inr rfl
      | none =>
        cases hc : jsonContent json with
        | none => rw [summarize_email_nostr v email text json hv hc]; exact Or.inr rfl
        | some raw =>
          rw [summarize_email_200 v email text json raw hv hc]
          cases hf : hasAllFields (clean_response (pyStrip raw))
          · rw [processContent_eq_missing hf]; exact Or.inr rfl
          · rw [processContent_eq_success hf]; exact Or.inl rfl
    · rw [summarize_email_non200 v email status text json h200]; exact Or.inr rfl

theorem sample_status_wf (email : EmailRequest) (sup : SampleUpstream) :
    (sample_summarize_email email sup).status = "success".toList ∨
      (sample_summarize_email email sup).status = "error".toList := by
  cases sup with
  | timeoutExn isConnect msg => cases isConnect <;> exact Or.inr rfl
  | retryExn msg => exact Or.inr rfl
  | otherExn msg => exact Or.inr rfl
  | resp status text json =>
    by_cases h200 : status = 200
    · subst h200
      cases hc : jsonContent json with
      | none => rw [sample_summarize_nostr email text json hc]; exact Or.inr rfl
      | some raw =>
        rw [sample_summarize_200 email text json raw hc]
        by_cases hemp : clean_response (pyStrip raw) = []
        · rw [sampleProcessContent_empty hemp]; exact Or.inr rfl
        · cases hf : hasAllFields (clean_response (pyStrip raw))
          · rw [sampleProcessContent_missing hemp hf]; exact Or.inr rfl
          · rw [sampleProcessContent_success hemp hf]; exact Or.inl rfl
    · rw [sample_summarize_non200 email status text json h200]; exact Or.inr rfl

/-- Claim C2: both handlers are total functions of the inquiry and the observed
upstream outcome (so no exception escapes the request handler), every
response carries status "success" or "error", and every failure — transport
exception, timeout, retry exhaustion, non-200 status, malformed envelope,
missing fields — produces a well-formed outcome with status "error" and a
non-empty human-readable message. -/
theorem claim2_failures_yield_error_outcome (v : Option (List Char → Bool))
    (email : EmailRequest) (up : Upstream) (sup : SampleUpstream)
    (hm : mainFailure up = true) (hs : sampleFailure sup = true) :
    errorOutcome (summarize_email v email up) ∧
    errorOutcome (sample_summarize_email email sup) ∧
    (∀ up2, (summarize_email v email up2).status = "success".toList ∨
      (summarize_email v email up2).status = "error".toList) ∧
    (∀ sup2, (sample_summarize_email email sup2).status = "success".toList ∨
      (sample_summarize_email email sup2).status = "error".toList) :=
  ⟨main_failure_error v email up hm, sample_failure_error email sup hs,
    fun up2 => main_status_wf v email up2,
    fun sup2 => sample_status_wf email sup2⟩

theorem claim2_failures_yield_error_outcome_witness :
    mainFailure (Upstream.exn "boom".toList) = true ∧
    errorOutcome (summarize_email none demoEmail (Upstream.exn "boom".toList)) ∧
    errorOutcome (sample_summarize_email demoEmail (SampleUpstream.retryExn "x".toList)) :=
  ⟨by decide,
    (claim2_failures_yield_error_outcome none demoEmail (Upstream.exn "boom".toList)
      (SampleUpstream.retryExn "x".toList) (by decide) (by decide)).1,
    (claim2_failures_yield_error_outcome none demoEmail (Upstream.exn "boom".toList)
      (SampleUpstream.retryExn "x".toList) (by decide) (by decide)).2.1⟩

/-- Claim C8 refuted: the claim requires every validator/parser failure to
return an empty summary and empty riskAssessment, but on a 200 reply whose
content "hello" lacks the required markers `main.py` returns status "error"
with the non-empty summary "Error: Invalid response format" and the
non-empty riskAssessment "UNKNOWN - Response format error". -/
theorem claim8_counterexample :
    (summarize_email none demoEmail (Upstream.resp 200 [] envPlainContent)).status =
      "error".toList ∧
    (summarize_email none demoEmail (Upstream.resp 200 [] envPlainContent)).summary =
      "Error: Invalid response format".toList ∧
    (summarize_email none demoEmail (Upstream.resp 200 [] envPlainContent)).summary ≠ [] ∧
    (summarize_email none demoEmail (Upstream.resp 200 [] envPlainContent)).risk_assessment ≠
      [] := by
  have he : summarize_email none demoEmail (Upstream.resp 200 [] envPlainContent) =
      missingFieldsResponse := by
    rw [summarize_email_200 none demoEmail [] envPlainContent "hello".toList rfl rfl]
    exact processContent_eq_missing (by decide) _
  rw [he]
  exact ⟨rfl, rfl, by decide, by decide⟩

/-- Claim C8 as amended: on a successfully parsed assessment the outcome has
status "success" and riskAssessment "riskLevel - riskDetails"; transport
exceptions, non-200 statuses and envelope-validation failures return
status "error" with empty summary and riskAssessment and an error message;
the parser's missing-required-fields failure also returns status "error",
but with summary "Error: Invalid response format" and riskAssessment
"UNKNOWN - Response format error" rather than empty strings. -/
theorem claim8_amended (v : Option (List Char → Bool)) (email : EmailRequest) :
    (∀ msg, summarize_email v email (Upstream.exn msg) =
      mkErrorResponse ("Request failed: ".toList ++ msg)) ∧
    (∀ status text json, ¬ status = 200 →
      summarize_email v email (Upstream.resp status text json) =
        mkErrorResponse (apiErrorMsg status text)) ∧
    (∀ text json m, validate_response json = some m →
      summarize_email v email (Upstream.resp 200 text json) = mkErrorResponse m) ∧
    (∀ msg, (mkErrorResponse msg).summary = [] ∧
      (mkErrorResponse msg).risk_assessment = [] ∧
      (mkErrorResponse msg).status = "error".toList ∧
      (mkErrorResponse msg).error = some msg) ∧
    (∀ text json raw, validate_response json = none → jsonContent json = some raw →
      hasAllFields (clean_response (pyStrip raw)) = true →
      summarize_email v email (Upstream.resp 200 text json) =
        { summary := (parseFields (linesOf (clean_response (pyStrip raw)))).summary
        , status := "success".toList
        , risk_assessment :=
            finalRiskLevel (parseFields (linesOf (clean_response (pyStrip raw)))) ++
              " - ".toList ++
              (parseFields (linesOf (clean_response (pyStrip raw)))).riskDetails
        , error := none
        , link_scan_results := some (scan_links v (extract_links email.body)) }) ∧
    (∀ text json raw, validate_response json = none → jsonContent json = some raw →
      hasAllFields (clean_response (pyStrip raw)) = false →
      summarize_email v email (Upstream.resp 200 text json) = missingFieldsResponse) := by
  refine ⟨fun msg => summarize_email_exn v email msg,
    fun status text json h => summarize_email_non200 v email status text json h,
    fun text json m h => summarize_email_invalid_env v email text json m h,
    fun msg => ⟨rfl, rfl, rfl, rfl⟩, ?_, ?_⟩
  · intro text json raw hv hc hf
    rw [summarize_email_200 v email text json raw hv hc, processContent_eq_success hf]
  · intro text json raw hv hc hf
    rw [summarize_email_200 v email text json raw hv hc, processContent_eq_missing hf]

theorem claim8_amended_witness :
    validate_response envGoodContent = none ∧
    hasAllFields (clean_response (pyStrip "SUMMARY: ok\nRISK_LEVEL: LOW\nRISK_DETAILS: fine".toList)) = true ∧
    summarize_email none demoEmail (Upstream.resp 500 "oops".toList envGoodContent) =
      mkErrorResponse (apiErrorMsg 500 "oops".toList) ∧
    (summarize_email none demoEmail (Upstream.resp 200 [] envGoodContent)).status =
      "success".toList :=
  ⟨by decide, by decide,
    (claim8_amended none demoEmail).2.1 500 "oops".toList envGoodContent (by decide),
    by
      rw [(claim8_amended none demoEmail).2.2.2.2.1 [] envGoodContent
        "SUMMARY: ok\nRISK_LEVEL: LOW\nRISK_DETAILS: fine".toList rfl rfl (by decide)]⟩

/-- Claim C9 refuted: `main.py` has no emptiness check, so a 200 reply
whose content cleans to the empty string is reported as a
missing-required-fields failure ("API response missing required fields"),
not as an empty-response failure — the claim fails on `main.py`'s
parser. -/
theorem claim9_counterexample :
    clean_response (pyStrip "<think>".toList) = [] ∧
    summarize_email none demoEmail (Upstream.resp 200 [] envThinkOnly) =
      missingFieldsResponse ∧
    (summarize_email none demoEmail (Upstream.resp 200 [] envThinkOnly)).error ≠
      some "API returned empty or invalid response".toList ∧
    (summarize_email none demoEmail (Upstream.resp 200 [] envThinkOnly)).summary ≠
      "Error: Empty response".toList := by
  have he : summarize_email none demoEmail (Upstream.resp 200 [] envThinkOnly) =
      missingFieldsResponse := by
    rw [summarize_email_200 none demoEmail [] envThinkOnly "<think>".toList rfl rfl]
    exact processContent_eq_missing (by decide) _
  rw [he]
  exact ⟨by decide, rfl, by decide, by decide⟩

/-- Claim C9 as amended: the claim holds of `sampleSummary.py`'s handler — a raw
content whose cleaned form is empty yields the empty-response outcome
(status "error", summary "Error: Empty response", error "API returned
empty or invalid response") before the required-field check; `main.py`'s
handler has no emptiness check and instead reports the
missing-required-fields failure for such content. -/
theorem claim9_amended (email : EmailRequest) (text raw : List Char) (json : Json)
    (hc : jsonContent json = some raw)
    (h : clean_response (pyStrip raw) = []) :
    sample_summarize_email email (SampleUpstream.resp 200 text json) =
      emptyResponseOutcome ∧
    emptyResponseOutcome.status = "error".toList ∧
    emptyResponseOutcome.summary = "Error: Empty response".toList ∧
    emptyResponseOutcome.error =
      some "API returned empty or invalid response".toList := by
  rw [sample_summarize_200 email text json raw hc, sampleProcessContent_empty h]
  exact ⟨rfl, rfl, rfl, rfl⟩

theorem claim9_amended_witness :
    clean_response (pyStrip "<think>".toList) = [] ∧
    sample_summarize_email demoEmail (SampleUpstream.resp 200 [] envThinkOnly) =
      emptyResponseOutcome :=
  ⟨by decide,
    (claim9_amended demoEmail [] "<think>".toList envThinkOnly rfl (by decide)).1⟩

